import Mathlib

/-!
Shallow embedding of the K210 HAL SPI driver (`src/spi.rs`).

Hardware register writes and external calls (sysctl, DMA engine) are
recorded in an event log; register reads performed inside spin loops are
supplied by an oracle (one read stream per polled register), and each spin
loop is bounded by explicit fuel: a `none` outcome means the loop was still
spinning when the fuel ran out, so an oracle that never satisfies the exit
condition yields `none` for every fuel.  The software chip-select state
(`slave_select` in the Rust struct) is threaded through every operation as
`ssAfter`; the clock-gate enable bit for the instance is passed as the
`clk` argument, representing the live `sysctl::clk_en_peri()` read made at
call time.
-/

namespace K210Spi

/-- The two controller instances (`SpiNumber` in the source). -/
inductive SpiNumber
  | spi0
  | spi1
deriving DecidableEq, Repr

/-- `SpiError` from the source. -/
inductive SpiError
  | noSlaveSelect
  | noClockRateSpecified
  | willCauseMemoryError
deriving DecidableEq, Repr

/-- The registers of the SPI register block that the driver writes. -/
inductive Reg
  | imr
  | dmacr
  | dmatdlr
  | dmardlr
  | ser
  | ssienr
  | ctrlr0
  | spiCtrlr0
  | endian
  | baudr
  | ctrlr1
  | dr
deriving DecidableEq, Repr

/-- Value written to a register: either raw bits, or the structured field
writes made to `ctrlr0` / `spi_ctrlr0` (the bit packing of those fields is
done by the external PAC crate, so we record the fields themselves). -/
inductive WVal
  | bits (v : Nat)
  | ctrlr0F (workMode tmod frameFormat dataLengthM1 : Nat)
  | spiCtrlr0F (aitm addrL instL waitCycles : Nat)
deriving DecidableEq, Repr

/-- DMA request lines routed by `sysctl::set_dma_sel`. -/
inductive DmaSelect
  | ssi0rx
  | ssi1rx
  | ssi0tx
  | ssi1tx
deriving DecidableEq, Repr

/-- One observable hardware effect: a register write, or an external call
to the sysctl clock gate or the DMA engine. -/
inductive Event
  | write (r : Reg) (v : WVal)
  | clkEnSet (n : SpiNumber)
  | setDmaSel (ch : Nat) (sel : DmaSelect)
  | dmaSingleMode (ch : Nat) (count : Nat)
  | dmaWaitDone (ch : Nat)
deriving DecidableEq, Repr

/-- Read oracle: the value returned by the i-th read of each polled
register (`sr`, `txflr`, `rxflr`, `dr`). -/
structure HwOracle where
  sr : Nat → Nat
  txflr : Nat → Nat
  rxflr : Nat → Nat
  dr : Nat → Nat

/-- Outcome of a transfer operation (`nb::Result` collapsed: `ok` or a
`SpiError`). -/
inductive TOut (α : Type)
  | ok (a : α)
  | err (e : SpiError)
deriving DecidableEq, Repr

/-- Result of running one driver operation: `result = none` means the
operation was still spinning on a status bit when the fuel ran out;
`log` is the prefix of hardware effects performed so far; `ssAfter` is
the software `slave_select` field after the call. -/
structure OpOut (α : Type) where
  result : Option (TOut α)
  log : List Event
  ssAfter : Option Nat
deriving DecidableEq, Repr

/-- Bounded spin loop: read the register stream starting at index `k`
until the predicate on the read value holds, returning the index of the
successful read, or `none` when fuel is exhausted. -/
def spinUntil (good : Nat → Bool) (read : Nat → Nat) : Nat → Nat → Option Nat
  | 0, _ => none
  | fuel + 1, k => if good (read k) then some k else spinUntil good read fuel (k + 1)

/-- `SpiExt::constrain`: the handle starts with `slave_select: None`. -/
def constrain : Option Nat := none

/-- `Spi::set_slave_select`: plain software state update. -/
def set_slave_select (ss : Option Nat) : Option Nat := ss

/-- Encoding of `instruction_length` into the 2-bit `inst_length` field;
`none` models the `panic!("unhandled instruction length")` arm. -/
def instLenEncode : Nat → Option Nat
  | 0 => some 0
  | 4 => some 1
  | 8 => some 2
  | 16 => some 3
  | _ => none

/-- The preconditions `configure` asserts, as stated by the spec:
`data_length ∈ [4,32]`, `wait_cycles < 32`,
`instruction_length ∈ {0,4,8,16}`, `address_length % 4 = 0 ∧ ≤ 60`. -/
def configPreOk (dataLength instructionLength addressLength waitCycles : Nat) : Prop :=
  (4 ≤ dataLength ∧ dataLength ≤ 32) ∧ waitCycles < 32 ∧
    (instructionLength = 0 ∨ instructionLength = 4 ∨ instructionLength = 8 ∨
      instructionLength = 16) ∧
    (addressLength % 4 = 0 ∧ addressLength ≤ 60)

instance (dl il al wc : Nat) : Decidable (configPreOk dl il al wc) := by
  unfold configPreOk; infer_instance

/-- `Spi::configure`.  The asserts run in source order before any register
write; a failed assert (or the `panic!` arm of the instruction-length
match) aborts with `(none, [])`. -/
def configure (workMode frameFormat tmod aitm : Nat)
    (dataLength endianv instructionLength addressLength waitCycles : Nat) :
    Option Unit × List Event :=
  if 4 ≤ dataLength ∧ dataLength ≤ 32 then
    if waitCycles < 32 then
      match instLenEncode instructionLength with
      | none => (none, [])
      | some instL =>
        if addressLength % 4 = 0 ∧ addressLength ≤ 60 then
          (some (),
            [Event.write Reg.imr (WVal.bits 0x00),
             Event.write Reg.dmacr (WVal.bits 0x00),
             Event.write Reg.dmatdlr (WVal.bits 0x10),
             Event.write Reg.dmardlr (WVal.bits 0x00),
             Event.write Reg.ser (WVal.bits 0x00),
             Event.write Reg.ssienr (WVal.bits 0x00),
             Event.write Reg.ctrlr0 (WVal.ctrlr0F workMode tmod frameFormat (dataLength - 1)),
             Event.write Reg.spiCtrlr0
               (WVal.spiCtrlr0F aitm (addressLength / 4) instL waitCycles),
             Event.write Reg.endian (WVal.bits endianv)])
        else (none, [])
    else (none, [])
  else (none, [])

/-- `Spi::set_clk_rate`: enables the instance's peripheral clock gate,
computes `baudrate = (pll0 / spiClk).max(2).min(65534)`, writes it to
`baudr`, and returns `pll0 / baudrate`.  A zero requested frequency is the
Rust division-by-zero panic, modelled as `none` (the clock-gate modify has
already happened at that point). -/
def set_clk_rate (num : SpiNumber) (spiClk pll0 : Nat) : Option Nat × List Event :=
  if spiClk = 0 then (none, [Event.clkEnSet num])
  else
    let baudrate := min (max (pll0 / spiClk) 2) 65534
    (some (pll0 / baudrate),
      [Event.clkEnSet num, Event.write Reg.baudr (WVal.bits baudrate)])

/-- Single-word `FullDuplex::try_read` (macro-generated for u8/u16/u32;
`tmax` is the instantiating type's `MAX`).  Checks slave select, then the
live clock-gate bit, then performs the receive sequence, saturating the
raw 32-bit FIFO read via `.max(0).min(MAX)`. -/
def tryReadWord (tmax : Nat) (clk : Bool) (ss : Option Nat) (orc : HwOracle)
    (fuel : Nat) : OpOut Nat :=
  let rl : Option (TOut Nat) × List Event :=
    match ss with
    | none => (some (TOut.err SpiError.noSlaveSelect), [])
    | some n =>
      match clk with
      | false => (some (TOut.err SpiError.noClockRateSpecified), [])
      | true =>
        let pre : List Event :=
          [Event.write Reg.ctrlr1 (WVal.bits 0x00),
           Event.write Reg.ssienr (WVal.bits 0x01),
           Event.write Reg.dr (WVal.bits 0xffffffff),
           Event.write Reg.ser (WVal.bits (1 <<< n))]
        match spinUntil (fun v => v != 0) orc.rxflr fuel 0 with
        | none => (none, pre)
        | some _ =>
          let rx := min (max (orc.dr 0) 0) tmax
          (some (TOut.ok rx),
            pre ++ [Event.write Reg.ser (WVal.bits 0x00),
                    Event.write Reg.ssienr (WVal.bits 0x00)])
  ⟨rl.1, rl.2, ss⟩

/-- Single-word `FullDuplex::try_send` (macro-generated for u8/u16/u32).
Checks slave select, then the live clock-gate bit, asserts the select
line, spins for FIFO room, pushes the word, spins until
`sr & 0x05 == 0x04`, then deasserts and disables. -/
def trySendWord (word : Nat) (clk : Bool) (ss : Option Nat) (orc : HwOracle)
    (fuel : Nat) : OpOut Unit :=
  let rl : Option (TOut Unit) × List Event :=
    match ss with
    | none => (some (TOut.err SpiError.noSlaveSelect), [])
    | some n =>
      match clk with
      | false => (some (TOut.err SpiError.noClockRateSpecified), [])
      | true =>
        let pre : List Event :=
          [Event.write Reg.ser (WVal.bits (1 <<< n)),
           Event.write Reg.ssienr (WVal.bits 0x01)]
        match spinUntil (fun v => (32 - v) != 0) orc.txflr fuel 0 with
        | none => (none, pre)
        | some _ =>
          let pre2 := pre ++ [Event.write Reg.dr (WVal.bits word)]
          match spinUntil (fun v => (v &&& 0x05) == 0x04) orc.sr fuel 0 with
          | none => (none, pre2)
          | some _ =>
            (some (TOut.ok ()),
              pre2 ++ [Event.write Reg.ser (WVal.bits 0x00),
                       Event.write Reg.ssienr (WVal.bits 0x00)])
  ⟨rl.1, rl.2, ss⟩

/-- The push-with-backpressure loop of the multi-word `try_send`:
`fifo_len` starts at the given value; when it reaches 0 the loop spins on
`32 - txflr` until capacity appears.  Returns the data-register writes
performed (in order) and whether the whole list was pushed. -/
def pushWords (txflr : Nat → Nat) (fuel : Nat) :
    List Nat → Nat → Nat → Option Unit × List Event
  | [], _, _ => (some (), [])
  | v :: rest, fifoLen, k =>
    if fifoLen = 0 then
      match spinUntil (fun x => (32 - x) != 0) txflr fuel k with
      | none => (none, [])
      | some k2 =>
        let fl2 := 32 - txflr k2
        let next := pushWords txflr fuel rest (fl2 - 1) (k2 + 1)
        (next.1, Event.write Reg.dr (WVal.bits v) :: next.2)
    else
      let next := pushWords txflr fuel rest (fifoLen - 1) k
      (next.1, Event.write Reg.dr (WVal.bits v) :: next.2)

/-- Multi-word `FullDuplex<&[X]>::try_send`.  Checks only the slave
select (the source contains no clock-gate read on this path), asserts the
select line, runs the backpressure push loop, spins until
`sr & 0x05 == 0x04`, then deasserts and disables.  The `clk` argument is
accepted for uniformity but never inspected, mirroring the source. -/
def trySendSlice (clk : Bool) (ss : Option Nat) (orc : HwOracle) (fuel : Nat)
    (tx : List Nat) : OpOut Unit :=
  let rl : Option (TOut Unit) × List Event :=
    match ss with
    | none => (some (TOut.err SpiError.noSlaveSelect), [])
    | some n =>
      let pre : List Event :=
        [Event.write Reg.ser (WVal.bits (1 <<< n)),
         Event.write Reg.ssienr (WVal.bits 0x01)]
      match pushWords orc.txflr fuel tx 0 0 with
      | (none, plog) => (none, pre ++ plog)
      | (some _, plog) =>
        match spinUntil (fun v => (v &&& 0x05) == 0x04) orc.sr fuel 0 with
        | none => (none, pre ++ plog)
        | some _ =>
          (some (TOut.ok ()),
            pre ++ plog ++ [Event.write Reg.ser (WVal.bits 0x00),
                            Event.write Reg.ssienr (WVal.bits 0x00)])
  ⟨rl.1, rl.2, ss⟩

/-- Multi-word `FullDuplex<&[X]>::try_read`: unconditionally returns
`WillCauseMemoryError`, touching nothing. -/
def tryReadSlice (clk : Bool) (ss : Option Nat) : OpOut Unit :=
  ⟨some (TOut.err SpiError.willCauseMemoryError), [], ss⟩

/-- `Spi::send_data_dma`.  Checks only the slave select (no clock-gate
read in the source), programs DMA transmit, waits for the channel, spins
until `sr & 0x05 == 0x04`, then deasserts and disables.  `clk` is never
inspected, mirroring the source. -/
def send_data_dma (num : SpiNumber) (ch : Nat) (clk : Bool) (ss : Option Nat)
    (orc : HwOracle) (fuel : Nat) (tx : List Nat) : OpOut Unit :=
  let rl : Option (TOut Unit) × List Event :=
    match ss with
    | none => (some (TOut.err SpiError.noSlaveSelect), [])
    | some n =>
      let sel := match num with
        | SpiNumber.spi0 => DmaSelect.ssi0tx
        | SpiNumber.spi1 => DmaSelect.ssi1tx
      let pre : List Event :=
        [Event.write Reg.dmacr (WVal.bits 0x2),
         Event.write Reg.ssienr (WVal.bits 0x1),
         Event.setDmaSel ch sel,
         Event.dmaSingleMode ch tx.length,
         Event.write Reg.ser (WVal.bits (1 <<< n)),
         Event.dmaWaitDone ch]
      match spinUntil (fun v => (v &&& 0x05) == 0x04) orc.sr fuel 0 with
      | none => (none, pre)
      | some _ =>
        (some (TOut.ok ()),
          pre ++ [Event.write Reg.ser (WVal.bits 0x00),
                  Event.write Reg.ssienr (WVal.bits 0x00)])
  ⟨rl.1, rl.2, ss⟩

/-- `Spi::recv_data_dma`.  An empty buffer returns `Ok(())` before any
check or write; otherwise slave select and the live clock-gate bit are
checked, then the receive-DMA sequence runs (this path has no final
status-register spin, so no fuel is needed). -/
def recv_data_dma (num : SpiNumber) (ch : Nat) (rxLen : Nat) (clk : Bool)
    (ss : Option Nat) : OpOut Unit :=
  let rl : Option (TOut Unit) × List Event :=
    if rxLen = 0 then (some (TOut.ok ()), [])
    else
      match ss with
      | none => (some (TOut.err SpiError.noSlaveSelect), [])
      | some n =>
        match clk with
        | false => (some (TOut.err SpiError.noClockRateSpecified), [])
        | true =>
          let sel := match num with
            | SpiNumber.spi0 => DmaSelect.ssi0rx
            | SpiNumber.spi1 => DmaSelect.ssi1rx
          (some (TOut.ok ()),
            [Event.write Reg.ctrlr1 (WVal.bits (rxLen - 1)),
             Event.write Reg.ssienr (WVal.bits 0x01),
             Event.write Reg.dmacr (WVal.bits 0x3),
             Event.setDmaSel ch sel,
             Event.dmaSingleMode ch rxLen,
             Event.write Reg.dr (WVal.bits 0xffffffff),
             Event.write Reg.ser (WVal.bits (1 <<< n)),
             Event.dmaWaitDone ch,
             Event.write Reg.ser (WVal.bits 0x00),
             Event.write Reg.ssienr (WVal.bits 0x00)])
  ⟨rl.1, rl.2, ss⟩

/-- Value of a `ser` register write, `none` for any other event. -/
def serValOf : Event → Option WVal
  | Event.write Reg.ser v => some v
  | _ => none

/-- The value of the last write to the `ser` (slave-select) register in a
log, if any. -/
def lastSer (log : List Event) : Option WVal :=
  log.reverse.findSome? serValOf

/-- A cooperative oracle: status register always idle-and-empty, transmit
FIFO empty, receive FIFO non-empty, data register reads 1000. -/
def okOrc : HwOracle := ⟨fun _ => 0x04, fun _ => 0, fun _ => 1, fun _ => 1000⟩

/-- An oracle whose status register forever reads 0 (busy pattern: bits 0
and 2 never equal `0b100`). -/
def busyOrc : HwOracle := ⟨fun _ => 0, fun _ => 0, fun _ => 1, fun _ => 0⟩

/-! ### Helper lemmas -/

theorem spinUntil_none_of_never (good : Nat → Bool) (read : Nat → Nat)
    (h : ∀ k, good (read k) = false) :
    ∀ fuel k, spinUntil good read fuel k = none := by
  intro fuel
  induction fuel with
  | zero => intro k; rfl
  | succ f ih =>
    intro k
    unfold spinUntil
    rw [h k]
    simpa using ih (k + 1)

theorem instLenEncode_none (i : Nat)
    (h : ¬(i = 0 ∨ i = 4 ∨ i = 8 ∨ i = 16)) : instLenEncode i = none := by
  unfold instLenEncode
  split
  · exact absurd (Or.inl rfl) h
  · exact absurd (Or.inr (Or.inl rfl)) h
  · exact absurd (Or.inr (Or.inr (Or.inl rfl))) h
  · exact absurd (Or.inr (Or.inr (Or.inr rfl))) h
  · rfl

theorem lastSer_concat (l : List Event) :
    lastSer (l ++ [Event.write Reg.ser (WVal.bits 0x00),
                   Event.write Reg.ssienr (WVal.bits 0x00)]) =
      some (WVal.bits 0) := by
  unfold lastSer
  rw [List.reverse_append]
  simp [List.findSome?, serValOf]

theorem pushWords_log_only_dr (txflr : Nat → Nat) (fuel : Nat) :
    ∀ (tx : List Nat) (fl k : Nat) (e : Event),
      e ∈ (pushWords txflr fuel tx fl k).2 → ∃ v, e = Event.write Reg.dr (WVal.bits v) := by
  intro tx
  induction tx with
  | nil => intro fl k e he; simp [pushWords] at he
  | cons v rest ih =>
    intro fl k e he
    unfold pushWords at he
    by_cases hfl : fl = 0
    · rw [if_pos hfl] at he
      cases hsp : spinUntil (fun x => (32 - x) != 0) txflr fuel k with
      | none => rw [hsp] at he; simp at he
      | some k2 =>
        rw [hsp] at he
        simp only [List.mem_cons] at he
        rcases he with he | he
        · exact ⟨v, he⟩
        · exact ih _ _ e he
    · rw [if_neg hfl] at he
      simp only [List.mem_cons] at he
      rcases he with he | he
      · exact ⟨v, he⟩
      · exact ih _ _ e he

theorem one_shiftLeft_ne_zero (n : Nat) : 1 <<< n ≠ 0 := by
  rw [Nat.shiftLeft_eq, Nat.one_mul]
  exact Nat.pos_iff_ne_zero.mp (Nat.pos_pow_of_pos n (by decide))

/-! ### Claim theorems -/

/-- Claim C1: for every argument tuple violating a configuration
precondition (data_length outside [4,32], wait_cycles ≥ 32,
instruction_length ∉ {0,4,8,16}, or address_length not a multiple of 4 or
greater than 60), `configure` aborts before performing any register write,
so the register state is unchanged (empty event log) on a rejected
configuration. -/
theorem configure_rejects_before_any_write
    (workMode frameFormat tmod aitm dataLength endianv instructionLength
      addressLength waitCycles : Nat)
    (h : ¬ configPreOk dataLength instructionLength addressLength waitCycles) :
    configure workMode frameFormat tmod aitm dataLength endianv
      instructionLength addressLength waitCycles = (none, []) := by
  unfold configure
  rcases Decidable.em (4 ≤ dataLength ∧ dataLength ≤ 32) with h1 | h1
  · rw [if_pos h1]
    rcases Decidable.em (waitCycles < 32) with h2 | h2
    · rw [if_pos h2]
      rcases Decidable.em (instructionLength = 0 ∨ instructionLength = 4 ∨
          instructionLength = 8 ∨ instructionLength = 16) with h3 | h3
      · cases hinst : instLenEncode instructionLength with
        | none => rfl
        | some instL =>
          rcases Decidable.em (addressLength % 4 = 0 ∧ addressLength ≤ 60) with h4 | h4
          · exact absurd ⟨h1, h2, h3, h4⟩ h
          · simp only [if_neg h4]
      · rw [instLenEncode_none _ h3]
    · rw [if_neg h2]
  · rw [if_neg h1]

/-- Witness for C1 at a concrete rejected tuple (data_length = 3). -/
theorem configure_rejects_before_any_write_witness :
    ¬ configPreOk 3 0 0 0 ∧
      configure 0 0 0 0 3 0 0 0 0 = (none, []) :=
  ⟨by decide, configure_rejects_before_any_write 0 0 0 0 3 0 0 0 0 (by decide)⟩

/-- Claim C3: for every positive requested frequency and every base
frequency, `set_clk_rate` computes the divisor `clamp(base / requested,
2, 65534)`, writes it to the baud-rate register, and returns exactly
`base / divisor` under integer division; the divisor always lies in
[2, 65534]. -/
theorem set_clk_rate_clamped_divisor (num : SpiNumber) (spiClk pll0 : Nat)
    (h : 0 < spiClk) :
    set_clk_rate num spiClk pll0 =
      (some (pll0 / min (max (pll0 / spiClk) 2) 65534),
       [Event.clkEnSet num,
        Event.write Reg.baudr (WVal.bits (min (max (pll0 / spiClk) 2) 65534))]) ∧
    2 ≤ min (max (pll0 / spiClk) 2) 65534 ∧
    min (max (pll0 / spiClk) 2) 65534 ≤ 65534 := by
  refine ⟨?_, ?_, ?_⟩
  · unfold set_clk_rate
    rw [if_neg (Nat.pos_iff_ne_zero.mp h)]
  · omega
  · omega

/-- Witness for C3 at the spec's scenario: a 10 MHz request against a
390 MHz base gives divisor 39 and actual rate exactly 10000000 Hz. -/
theorem set_clk_rate_clamped_divisor_witness :
    (0 < 10000000 ∧
      set_clk_rate SpiNumber.spi0 10000000 390000000 =
        (some (390000000 / min (max (390000000 / 10000000) 2) 65534),
         [Event.clkEnSet SpiNumber.spi0,
          Event.write Reg.baudr
            (WVal.bits (min (max (390000000 / 10000000) 2) 65534))]) ∧
      2 ≤ min (max (390000000 / 10000000) 2) 65534 ∧
      min (max (390000000 / 10000000) 2) 65534 ≤ 65534) ∧
    min (max (390000000 / 10000000) 2) 65534 = 39 ∧
    390000000 / 39 = 10000000 :=
  ⟨⟨by decide,
    (set_clk_rate_clamped_divisor SpiNumber.spi0 10000000 390000000 (by decide)).1,
    (set_clk_rate_clamped_divisor SpiNumber.spi0 10000000 390000000 (by decide)).2.1,
    (set_clk_rate_clamped_divisor SpiNumber.spi0 10000000 390000000 (by decide)).2.2⟩,
   by decide, by decide⟩

/-- Claim C9: the streamed multi-word full-duplex read always fails
immediately with `WillCauseMemoryError`, for every handle state,
performing no hardware register access (empty log). -/
theorem tryReadSlice_always_memory_error (clk : Bool) (ss : Option Nat) :
    tryReadSlice clk ss =
      ⟨some (TOut.err SpiError.willCauseMemoryError), [], ss⟩ := rfl

/-- Claim C10: `recv_data_dma` with an empty receive buffer returns Ok
immediately with no register writes, skipping both the chip-select and
clock-gate checks — in particular it succeeds with no slave selected and
the clock gate disabled. -/
theorem recv_data_dma_empty_ok (num : SpiNumber) (ch : Nat) (clk : Bool)
    (ss : Option Nat) :
    recv_data_dma num ch 0 clk ss = ⟨some (TOut.ok ()), [], ss⟩ := rfl

/-- Counterexample to claim C2: the multi-word `try_send` invoked with a
slave selected but the clock-gate bit clear does not return
`NoClockRateSpecified` — it proceeds and completes, because this path
never reads the clock-gate bit. -/
theorem trySendSlice_ignores_clock_gate_cex :
    (trySendSlice false (some 0) okOrc 2 [5]).result = some (TOut.ok ()) ∧
    (trySendSlice false (some 0) okOrc 2 [5]).result ≠
      some (TOut.err SpiError.noClockRateSpecified) := by decide

/-- Claim C2 as amended: the single-word `try_send` and `try_read` and the
non-empty `recv_data_dma` return `NoClockRateSpecified` (before any
register write) whenever the instance's live clock-gate bit is clear; the
multi-word `try_send` and `send_data_dma` perform no clock-gate check at
all — their behaviour is identical whether the bit is set or clear. -/
theorem clock_gate_check_amended :
    (∀ tmax n fuel : Nat, ∀ orc : HwOracle,
      tryReadWord tmax false (some n) orc fuel =
        ⟨some (TOut.err SpiError.noClockRateSpecified), [], some n⟩) ∧
    (∀ word n fuel : Nat, ∀ orc : HwOracle,
      trySendWord word false (some n) orc fuel =
        ⟨some (TOut.err SpiError.noClockRateSpecified), [], some n⟩) ∧
    (∀ num : SpiNumber, ∀ ch l n : Nat,
      recv_data_dma num ch (l + 1) false (some n) =
        ⟨some (TOut.err SpiError.noClockRateSpecified), [], some n⟩) ∧
    (∀ ss : Option Nat, ∀ orc : HwOracle, ∀ fuel : Nat, ∀ tx : List Nat,
      trySendSlice false ss orc fuel tx = trySendSlice true ss orc fuel tx) ∧
    (∀ num : SpiNumber, ∀ ch : Nat, ∀ ss : Option Nat, ∀ orc : HwOracle,
      ∀ fuel : Nat, ∀ tx : List Nat,
      send_data_dma num ch false ss orc fuel tx =
        send_data_dma num ch true ss orc fuel tx) :=
  ⟨fun _ _ _ _ => rfl, fun _ _ _ _ => rfl,
   fun _ _ l _ => by simp [recv_data_dma],
   fun _ _ _ _ => rfl, fun _ _ _ _ _ _ => rfl⟩

/-- Counterexample to claim C4: `recv_data_dma` is a transfer operation,
yet invoked with chip-select `None` on an empty buffer it returns
`Ok(())`, not `NoSlaveSelect`. -/
theorem recv_data_dma_no_select_cex :
    (recv_data_dma SpiNumber.spi0 0 0 false none).result = some (TOut.ok ()) ∧
    (recv_data_dma SpiNumber.spi0 0 0 false none).result ≠
      some (TOut.err SpiError.noSlaveSelect) := by decide

/-- Claim C4 as amended: every transfer operation other than the
always-failing streamed read, when invoked with the chip-select
assignment `None`, returns `NoSlaveSelect` with zero register writes —
except `recv_data_dma` on an empty buffer, which returns `Ok(())`, also
with zero register writes. -/
theorem no_slave_select_amended :
    (∀ tmax fuel : Nat, ∀ clk : Bool, ∀ orc : HwOracle,
      tryReadWord tmax clk none orc fuel =
        ⟨some (TOut.err SpiError.noSlaveSelect), [], none⟩) ∧
    (∀ word fuel : Nat, ∀ clk : Bool, ∀ orc : HwOracle,
      trySendWord word clk none orc fuel =
        ⟨some (TOut.err SpiError.noSlaveSelect), [], none⟩) ∧
    (∀ clk : Bool, ∀ orc : HwOracle, ∀ fuel : Nat, ∀ tx : List Nat,
      trySendSlice clk none orc fuel tx =
        ⟨some (TOut.err SpiError.noSlaveSelect), [], none⟩) ∧
    (∀ num : SpiNumber, ∀ ch : Nat, ∀ clk : Bool, ∀ orc : HwOracle,
      ∀ fuel : Nat, ∀ tx : List Nat,
      send_data_dma num ch clk none orc fuel tx =
        ⟨some (TOut.err SpiError.noSlaveSelect), [], none⟩) ∧
    (∀ num : SpiNumber, ∀ ch l : Nat, ∀ clk : Bool,
      recv_data_dma num ch (l + 1) clk none =
        ⟨some (TOut.err SpiError.noSlaveSelect), [], none⟩) ∧
    (∀ num : SpiNumber, ∀ ch : Nat, ∀ clk : Bool,
      recv_data_dma num ch 0 clk none = ⟨some (TOut.ok ()), [], none⟩) :=
  ⟨fun _ _ _ _ => rfl, fun _ _ _ _ => rfl, fun _ _ _ _ => rfl,
   fun _ _ _ _ _ _ => rfl,
   fun _ _ l clk => by cases clk <;> simp [recv_data_dma],
   fun _ _ _ => rfl⟩

/-- Counterexample to claim C6: after a completed single-word send, the
software chip-select assignment is still `Some 2`, not `None` — no
transfer operation resets it. -/
theorem slave_select_persists_cex :
    (trySendWord 7 true (some 2) okOrc 2).result = some (TOut.ok ()) ∧
    (trySendWord 7 true (some 2) okOrc 2).ssAfter = some 2 ∧
    (some 2 : Option Nat) ≠ none := by decide

/-- Claim C6 as amended: the software chip-select assignment is `None` at
construction (its default) and is changed only by `set_slave_select`;
every transfer operation, completed or aborted, leaves it unchanged (only
the hardware select register is deasserted), so a previously set
assignment remains in force for subsequent transfers. -/
theorem slave_select_software_state_amended :
    constrain = none ∧
    (∀ s : Option Nat, set_slave_select s = s) ∧
    (∀ tmax fuel : Nat, ∀ clk : Bool, ∀ ss : Option Nat, ∀ orc : HwOracle,
      (tryReadWord tmax clk ss orc fuel).ssAfter = ss) ∧
    (∀ word fuel : Nat, ∀ clk : Bool, ∀ ss : Option Nat, ∀ orc : HwOracle,
      (trySendWord word clk ss orc fuel).ssAfter = ss) ∧
    (∀ clk : Bool, ∀ ss : Option Nat, ∀ orc : HwOracle, ∀ fuel : Nat,
      ∀ tx : List Nat, (trySendSlice clk ss orc fuel tx).ssAfter = ss) ∧
    (∀ clk : Bool, ∀ ss : Option Nat, (tryReadSlice clk ss).ssAfter = ss) ∧
    (∀ num : SpiNumber, ∀ ch : Nat, ∀ clk : Bool, ∀ ss : Option Nat,
      ∀ orc : HwOracle, ∀ fuel : Nat, ∀ tx : List Nat,
      (send_data_dma num ch clk ss orc fuel tx).ssAfter = ss) ∧
    (∀ num : SpiNumber, ∀ ch rxLen : Nat, ∀ clk : Bool, ∀ ss : Option Nat,
      (recv_data_dma num ch rxLen clk ss).ssAfter = ss) :=
  ⟨rfl, fun _ => rfl, fun _ _ _ _ _ => rfl, fun _ _ _ _ _ => rfl,
   fun _ _ _ _ _ => rfl, fun _ _ => rfl, fun _ _ _ _ _ _ _ => rfl,
   fun _ _ _ _ _ => rfl⟩

/-- Counterexample to claim C5: `recv_data_dma` on an empty buffer is a
completed transfer (`Ok(())`) on the DMA-receive path, yet the select
register is never written at all, let alone written back to 0. -/
theorem recv_data_dma_empty_no_deassert_cex :
    (recv_data_dma SpiNumber.spi0 0 0 true (some 2)).result = some (TOut.ok ()) ∧
    lastSer (recv_data_dma SpiNumber.spi0 0 0 true (some 2)).log ≠
      some (WVal.bits 0) := by decide

/-- Claim C5 as amended: on every transfer path (single-word FIFO
send/read, multi-word FIFO send, DMA send, DMA receive with a non-empty
buffer), a completed transfer writes the slave-select register back to 0
as its last `ser` write before returning; the sole exception is the
empty-buffer DMA receive, which completes without touching any register. -/
theorem ser_deasserted_after_transfer_amended :
    (∀ word fuel : Nat, ∀ clk : Bool, ∀ ss : Option Nat, ∀ orc : HwOracle,
      (trySendWord word clk ss orc fuel).result = some (TOut.ok ()) →
        lastSer (trySendWord word clk ss orc fuel).log = some (WVal.bits 0)) ∧
    (∀ tmax fuel r : Nat, ∀ clk : Bool, ∀ ss : Option Nat, ∀ orc : HwOracle,
      (tryReadWord tmax clk ss orc fuel).result = some (TOut.ok r) →
        lastSer (tryReadWord tmax clk ss orc fuel).log = some (WVal.bits 0)) ∧
    (∀ clk : Bool, ∀ ss : Option Nat, ∀ orc : HwOracle, ∀ fuel : Nat,
      ∀ tx : List Nat,
      (trySendSlice clk ss orc fuel tx).result = some (TOut.ok ()) →
        lastSer (trySendSlice clk ss orc fuel tx).log = some (WVal.bits 0)) ∧
    (∀ num : SpiNumber, ∀ ch : Nat, ∀ clk : Bool, ∀ ss : Option Nat,
      ∀ orc : HwOracle, ∀ fuel : Nat, ∀ tx : List Nat,
      (send_data_dma num ch clk ss orc fuel tx).result = some (TOut.ok ()) →
        lastSer (send_data_dma num ch clk ss orc fuel tx).log = some (WVal.bits 0)) ∧
    (∀ num : SpiNumber, ∀ ch l : Nat, ∀ clk : Bool, ∀ ss : Option Nat,
      (recv_data_dma num ch (l + 1) clk ss).result = some (TOut.ok ()) →
        lastSer (recv_data_dma num ch (l + 1) clk ss).log = some (WVal.bits 0)) := by
  refine ⟨?_, ?_, ?_, ?_, ?_⟩
  · intro word fuel clk ss orc h
    cases ss with
    | none => exact TOut.noConfusion (Option.some.inj h)
    | some n =>
      cases clk with
      | false => exact TOut.noConfusion (Option.some.inj h)
      | true =>
        unfold trySendWord at h ⊢
        cases h1 : spinUntil (fun v => (32 - v) != 0) orc.txflr fuel 0 with
        | none => rw [h1] at h; exact Option.noConfusion h
        | some k1 =>
          cases h2 : spinUntil (fun v => (v &&& 0x05) == 0x04) orc.sr fuel 0 with
          | none => rw [h1, h2] at h; exact Option.noConfusion h
          | some k2 =>
            exact lastSer_concat
              ([Event.write Reg.ser (WVal.bits (1 <<< n)),
                Event.write Reg.ssienr (WVal.bits 0x01)] ++
               [Event.write Reg.dr (WVal.bits word)])
  · intro tmax fuel r clk ss orc h
    cases ss with
    | none => exact TOut.noConfusion (Option.some.inj h)
    | some n =>
      cases clk with
      | false => exact TOut.noConfusion (Option.some.inj h)
      | true =>
        unfold tryReadWord at h ⊢
        cases h1 : spinUntil (fun v => v != 0) orc.rxflr fuel 0 with
        | none => rw [h1] at h; exact Option.noConfusion h
        | some k1 =>
          exact lastSer_concat
            [Event.write Reg.ctrlr1 (WVal.bits 0x00),
             Event.write Reg.ssienr (WVal.bits 0x01),
             Event.write Reg.dr (WVal.bits 0xffffffff),
             Event.write Reg.ser (WVal.bits (1 <<< n))]
  · intro clk ss orc fuel tx h
    cases ss with
    | none => exact TOut.noConfusion (Option.some.inj h)
    | some n =>
      unfold trySendSlice at h ⊢
      cases hp : pushWords orc.txflr fuel tx 0 0 with
      | mk pres plog =>
        rw [hp] at h
        cases pres with
        | none => exact Option.noConfusion h
        | some u =>
          cases h2 : spinUntil (fun v => (v &&& 0x05) == 0x04) orc.sr fuel 0 with
          | none => rw [h2] at h; exact Option.noConfusion h
          | some k2 =>
            exact lastSer_concat
              ([Event.write Reg.ser (WVal.bits (1 <<< n)),
                Event.write Reg.ssienr (WVal.bits 0x01)] ++ plog)
  · intro num ch clk ss orc fuel tx h
    cases ss with
    | none => exact TOut.noConfusion (Option.some.inj h)
    | some n =>
      unfold send_data_dma at h ⊢
      cases h2 : spinUntil (fun v => (v &&& 0x05) == 0x04) orc.sr fuel 0 with
      | none => rw [h2] at h; exact Option.noConfusion h
      | some k2 =>
        cases num with
        | spi0 =>
          exact lastSer_concat
            [Event.write Reg.dmacr (WVal.bits 0x2),
             Event.write Reg.ssienr (WVal.bits 0x1),
             Event.setDmaSel ch DmaSelect.ssi0tx,
             Event.dmaSingleMode ch tx.length,
             Event.write Reg.ser (WVal.bits (1 <<< n)),
             Event.dmaWaitDone ch]
        | spi1 =>
          exact lastSer_concat
            [Event.write Reg.dmacr (WVal.bits 0x2),
             Event.write Reg.ssienr (WVal.bits 0x1),
             Event.setDmaSel ch DmaSelect.ssi1tx,
             Event.dmaSingleMode ch tx.length,
             Event.write Reg.ser (WVal.bits (1 <<< n)),
             Event.dmaWaitDone ch]
  · intro num ch l clk ss h
    cases ss with
    | none => exact TOut.noConfusion (Option.some.inj h)
    | some n =>
      cases clk with
      | false => exact TOut.noConfusion (Option.some.inj h)
      | true =>
        cases num with
        | spi0 =>
          exact lastSer_concat
            [Event.write Reg.ctrlr1 (WVal.bits (l + 1 - 1)),
             Event.write Reg.ssienr (WVal.bits 0x01),
             Event.write Reg.dmacr (WVal.bits 0x3),
             Event.setDmaSel ch DmaSelect.ssi0rx,
             Event.dmaSingleMode ch (l + 1),
             Event.write Reg.dr (WVal.bits 0xffffffff),
             Event.write Reg.ser (WVal.bits (1 <<< n)),
             Event.dmaWaitDone ch]
        | spi1 =>
          exact lastSer_concat
            [Event.write Reg.ctrlr1 (WVal.bits (l + 1 - 1)),
             Event.write Reg.ssienr (WVal.bits 0x01),
             Event.write Reg.dmacr (WVal.bits 0x3),
             Event.setDmaSel ch DmaSelect.ssi1rx,
             Event.dmaSingleMode ch (l + 1),
             Event.write Reg.dr (WVal.bits 0xffffffff),
             Event.write Reg.ser (WVal.bits (1 <<< n)),
             Event.dmaWaitDone ch]

/-- Witness for the amended C5: each transfer path, run against a
cooperative oracle, completes with the last select-register write equal
to 0. -/
theorem ser_deasserted_after_transfer_amended_witness :
    lastSer (trySendWord 7 true (some 2) okOrc 2).log = some (WVal.bits 0) ∧
    lastSer (tryReadWord 255 true (some 1) okOrc 2).log = some (WVal.bits 0) ∧
    lastSer (trySendSlice true (some 0) okOrc 2 [5]).log = some (WVal.bits 0) ∧
    lastSer (send_data_dma SpiNumber.spi0 0 true (some 1) okOrc 2 [5]).log =
      some (WVal.bits 0) ∧
    lastSer (recv_data_dma SpiNumber.spi0 0 (0 + 1) true (some 2)).log =
      some (WVal.bits 0) :=
  ⟨ser_deasserted_after_transfer_amended.1 7 2 true (some 2) okOrc (by decide),
   ser_deasserted_after_transfer_amended.2.1 255 2 255 true (some 1) okOrc (by decide),
   ser_deasserted_after_transfer_amended.2.2.1 true (some 0) okOrc 2 [5] (by decide),
   ser_deasserted_after_transfer_amended.2.2.2.1 SpiNumber.spi0 0 true (some 1)
     okOrc 2 [5] (by decide),
   ser_deasserted_after_transfer_amended.2.2.2.2 SpiNumber.spi0 0 0 true (some 2)
     (by decide)⟩

/-- Claim C7: the FIFO write-path transfers (single-word `try_send` and
multi-word `try_send`) never deassert chip-select (no `ser := 0` write
appears in the log) and never complete while the status register, masked
on bits 0 and 2, differs from `0b100`; against a status oracle that
forever reports busy, the call never completes for any fuel bound. -/
theorem fifo_send_waits_for_idle (word n fuel : Nat) (tx : List Nat)
    (orc : HwOracle) (h : ∀ k, (orc.sr k &&& 0x05) ≠ 0x04) :
    ((trySendWord word true (some n) orc fuel).result = none ∧
      Event.write Reg.ser (WVal.bits 0x00) ∉
        (trySendWord word true (some n) orc fuel).log) ∧
    ((trySendSlice true (some n) orc fuel tx).result = none ∧
      Event.write Reg.ser (WVal.bits 0x00) ∉
        (trySendSlice true (some n) orc fuel tx).log) := by
  have hsr : ∀ k, (fun v => (v &&& 0x05) == 0x04) (orc.sr k) = false := by
    intro k
    simpa using h k
  have hspin :=
    spinUntil_none_of_never (fun v => (v &&& 0x05) == 0x04) orc.sr hsr fuel 0
  have hser : ∀ m : Nat, Event.write Reg.ser (WVal.bits 0x00) ≠
      Event.write Reg.ser (WVal.bits (1 <<< m)) := by
    intro m hcon
    injection hcon with hr hv
    injection hv with hb
    exact one_shiftLeft_ne_zero m hb.symm
  have hpre : ∀ m : Nat, Event.write Reg.ser (WVal.bits 0x00) ∉
      ([Event.write Reg.ser (WVal.bits (1 <<< m)),
        Event.write Reg.ssienr (WVal.bits 0x01)] : List Event) := by
    intro m hmem
    rcases List.mem_cons.mp hmem with hc | hmem2
    · exact hser m hc
    · rcases List.mem_cons.mp hmem2 with hc | hc
      · exact absurd hc (by decide)
      · exact absurd hc (List.not_mem_nil _)
  constructor
  · unfold trySendWord
    cases h1 : spinUntil (fun v => (32 - v) != 0) orc.txflr fuel 0 with
    | none =>
      refine ⟨rfl, ?_⟩
      show Event.write Reg.ser (WVal.bits 0x00) ∉
        [Event.write Reg.ser (WVal.bits (1 <<< n)),
         Event.write Reg.ssienr (WVal.bits 0x01)]
      exact hpre n
    | some k1 =>
      rw [hspin]
      refine ⟨rfl, ?_⟩
      show Event.write Reg.ser (WVal.bits 0x00) ∉
        ([Event.write Reg.ser (WVal.bits (1 <<< n)),
          Event.write Reg.ssienr (WVal.bits 0x01)] ++
         [Event.write Reg.dr (WVal.bits word)])
      intro hmem
      rcases List.mem_append.mp hmem with hc | hc
      · exact hpre n hc
      · rcases List.mem_cons.mp hc with hc2 | hc2
        · injection hc2 with hr hv
          exact Reg.noConfusion hr
        · exact absurd hc2 (List.not_mem_nil _)
  · unfold trySendSlice
    cases hp : pushWords orc.txflr fuel tx 0 0 with
    | mk pres plog =>
      have hplog : Event.write Reg.ser (WVal.bits 0x00) ∉ plog := by
        intro hmem
        obtain ⟨v, hv⟩ := pushWords_log_only_dr orc.txflr fuel tx 0 0 _
          (by rw [hp]; exact hmem)
        injection hv with hr hw
        exact Reg.noConfusion hr
      cases pres with
      | none =>
        refine ⟨rfl, ?_⟩
        show Event.write Reg.ser (WVal.bits 0x00) ∉
          ([Event.write Reg.ser (WVal.bits (1 <<< n)),
            Event.write Reg.ssienr (WVal.bits 0x01)] ++ plog)
        intro hmem
        rcases List.mem_append.mp hmem with hc | hc
        · exact hpre n hc
        · exact hplog hc
      | some u =>
        rw [hspin]
        refine ⟨rfl, ?_⟩
        show Event.write Reg.ser (WVal.bits 0x00) ∉
          ([Event.write Reg.ser (WVal.bits (1 <<< n)),
            Event.write Reg.ssienr (WVal.bits 0x01)] ++ plog)
        intro hmem
        rcases List.mem_append.mp hmem with hc | hc
        · exact hpre n hc
        · exact hplog hc

/-- Witness for C7: against `busyOrc` (status register stuck at 0), both
FIFO write paths fail to complete within fuel 3 and never write 0 to the
select register. -/
theorem fifo_send_waits_for_idle_witness :
    ((trySendWord 7 true (some 2) busyOrc 3).result = none ∧
      Event.write Reg.ser (WVal.bits 0x00) ∉
        (trySendWord 7 true (some 2) busyOrc 3).log) ∧
    ((trySendSlice true (some 2) busyOrc 3 [5]).result = none ∧
      Event.write Reg.ser (WVal.bits 0x00) ∉
        (trySendSlice true (some 2) busyOrc 3 [5]).log) :=
  fifo_send_waits_for_idle 7 2 3 [5] busyOrc (fun k => by simp [busyOrc])

/-- Claim C8: for every word width (`tmax` the width's maximum value) and
every raw 32-bit value popped from the receive FIFO, the read path
returns the raw value saturated to `tmax` via `.max(0).min(tmax)` rather
than bit-truncated; in particular the result never exceeds `tmax`. -/
theorem tryReadWord_saturates (tmax n fuel r : Nat) (orc : HwOracle)
    (h : (tryReadWord tmax true (some n) orc fuel).result = some (TOut.ok r)) :
    r = min (max (orc.dr 0) 0) tmax ∧ r ≤ tmax := by
  unfold tryReadWord at h
  cases h1 : spinUntil (fun v => v != 0) orc.rxflr fuel 0 with
  | none => rw [h1] at h; simp at h
  | some k1 =>
    rw [h1] at h
    simp only [Option.some.injEq] at h
    cases h
    exact ⟨rfl, Nat.min_le_right _ _⟩

/-- Witness for C8: an 8-bit read (`tmax = 255`) of a raw FIFO value 1000
returns 255 — the saturated value, in [0,255], not the bit-truncated
1000 % 256 = 232. -/
theorem tryReadWord_saturates_witness :
    (255 = min (max (okOrc.dr 0) 0) 255 ∧ 255 ≤ 255) ∧ 1000 % 256 = 232 :=
  ⟨tryReadWord_saturates 255 1 2 255 okOrc (by decide), by decide⟩

end K210Spi
